import Mathlib

/-!
Verification of the input-dispatch core of `egui_term` (`src/view.rs`).

The Rust code is shallowly embedded: the pure decision logic of each event
handler becomes a Lean function, `&mut` state becomes explicit state passing,
`f32` arithmetic is modelled exactly over `ℚ` (the relevant operations —
subtraction, division, truncation and the Rust float remainder — are exact on
the values involved), `i32` line counts become `ℤ`, and byte buffers become
`List Nat`.  Collaborators that live outside `src/` (the bindings table of
`src/bindings.rs`, the egui key-name lookup, the backend snapshot) are passed
in as explicit parameters, so every theorem quantifies over them.
-/

namespace EguiTerm

/-- Truncation toward zero on `ℚ`, modelling Rust `f32::trunc` (exact values). -/
def rtrunc (q : ℚ) : ℤ := if 0 ≤ q then ⌊q⌋ else ⌈q⌉

/-- Rust `%` on floats: `a % b = a - b * (a / b).trunc()`, modelled exactly on `ℚ`.
(The IEEE remainder used by Rust is exact, so no rounding is lost here.) -/
def rustRem (a b : ℚ) : ℚ := a - b * rtrunc (a / b)

/-- The terminal-mode bitset read by `view.rs` (`alacritty_terminal::term::TermMode`,
re-exported as `crate::backend::TerminalMode`), restricted to the flags the view
actually tests.  `MOUSE_MODE` is the union of the three mouse-reporting flags
`MOUSE_REPORT_CLICK | MOUSE_DRAG | MOUSE_MOTION`. -/
structure TermMode where
  mouse_report_click : Bool
  mouse_drag : Bool
  mouse_motion : Bool
  alt_screen : Bool
  alternate_scroll : Bool
  bracketed_paste : Bool
  app_cursor : Bool
deriving DecidableEq

/-- `terminal_mode.intersects(TerminalMode::MOUSE_MODE)`: true iff any
mouse-reporting flag is set. -/
def TermMode.mouseMode (m : TermMode) : Bool :=
  m.mouse_report_click || m.mouse_drag || m.mouse_motion

/-- A grid point (`alacritty_terminal::index::Point`): signed line, column. -/
structure GridPoint where
  line : ℤ
  column : ℕ
deriving DecidableEq

/-- The egui `Modifiers` struct. -/
structure Modifiers where
  alt : Bool
  ctrl : Bool
  shift : Bool
  mac_cmd : Bool
  command : Bool
deriving DecidableEq

/-- `egui::Modifiers::NONE`. -/
def Modifiers.NONE : Modifiers := ⟨false, false, false, false, false⟩

/-- The backend `MouseButton` variants used by `view.rs`. -/
inductive MouseButton where
  | LeftButton
  | LeftMove
  | ScrollUp
  | ScrollDown
deriving DecidableEq

/-- Selection granularity (`crate::backend::SelectionType`). -/
inductive SelectionType where
  | Simple
  | Semantic
  | Lines
deriving DecidableEq

/-- Link actions (`crate::backend::LinkAction`). -/
inductive LinkAction where
  | Open
  | Hover
deriving DecidableEq

/-- egui 2-d vector over exact rationals (pixel coordinates). -/
structure Vec2 where
  x : ℚ
  y : ℚ
deriving DecidableEq

/-- egui 2-d position over exact rationals (pixel coordinates). -/
structure Pos2 where
  x : ℚ
  y : ℚ
deriving DecidableEq

/-- The backend commands produced by the dispatch code under verification
(`BackendCommand` in `view.rs`; the `Resize` variant is emitted only by the
layout pass, which no claim touches, and is omitted). -/
inductive BackendCommand where
  | Write (bytes : List ℕ)
  | Scroll (delta : ℤ)
  | MouseReport (button : MouseButton) (modifiers : Modifiers)
      (point : GridPoint) (pressed : Bool)
  | SelectStart (kind : SelectionType) (x y : ℚ)
  | SelectUpdate (x y : ℚ)
  | ProcessLink (action : LinkAction) (point : GridPoint)
deriving DecidableEq

/-- The intermediate `InputAction` enum of `view.rs`. -/
inductive InputAction where
  | BackendCall (cmd : BackendCommand)
  | WriteToClipboard (data : String)
  | Ignore
  | ToggleSearch
  | SearchNext
  | SearchPrev
deriving DecidableEq

/-- The per-widget persisted state `TerminalViewState` of `view.rs`. -/
structure TerminalViewState where
  is_dragged : Bool
  scroll_pixels : ℚ
  current_mouse_position_on_grid : GridPoint
  search_query : String
  search_active : Bool
  search_just_opened : Bool
deriving DecidableEq

/-- `TerminalViewState::default()` (derived `Default`: all fields zero). -/
def TerminalViewState.default : TerminalViewState :=
  { is_dragged := false
    scroll_pixels := 0
    current_mouse_position_on_grid := ⟨0, 0⟩
    search_query := ""
    search_active := false
    search_just_opened := false }

/-- `egui::MouseWheelUnit`. -/
inductive MouseWheelUnit where
  | Line
  | Point
  | Page
deriving DecidableEq

/-- The `MouseWheelUnit::Line` arm of `process_mouse_wheel`:
`(delta.y.signum() * delta.y.abs().ceil()) as i32`.  (Rust `signum` on `+0.0`
is `1.0`, but the product is then `0`, so the sign split below is exact.) -/
def lineCeil (y : ℚ) : ℤ := if y < 0 then -⌈|y|⌉ else ⌈|y|⌉

/-- The line-count computation of `process_mouse_wheel` (src/view.rs:658-669),
returning the updated state together with the computed `lines`. -/
def wheelLines (state : TerminalViewState) (font_size : ℚ)
    (unit : MouseWheelUnit) (delta : Vec2) : TerminalViewState × ℤ :=
  match unit with
  | .Line => (state, lineCeil delta.y)
  | .Point =>
      let sp := state.scroll_pixels - delta.y
      ({ state with scroll_pixels := rustRem sp font_size },
        rtrunc (sp / font_size))
  | .Page => (state, 0)

/-- `process_mouse_wheel` (src/view.rs:651-704).  The backend is consulted only
for `last_content().terminal_mode`, passed here as `terminal_mode`; the `&mut`
state is made explicit in the return value. -/
def process_mouse_wheel (state : TerminalViewState) (font_size : ℚ)
    (unit : MouseWheelUnit) (delta : Vec2) (terminal_mode : TermMode) :
    TerminalViewState × InputAction :=
  let r := wheelLines state font_size unit delta
  let state := r.1
  let lines := r.2
  if lines = 0 then
    (state, .Ignore)
  else if terminal_mode.mouseMode then
    let mouse_btn :=
      if 0 < lines then MouseButton.ScrollDown else MouseButton.ScrollUp
    (state, .BackendCall (.MouseReport mouse_btn Modifiers.NONE
      state.current_mouse_position_on_grid true))
  else if terminal_mode.alt_screen && terminal_mode.alternate_scroll then
    let line_cmd : ℕ := if 0 < lines then 66 else 65
    (state, .BackendCall
      (.Write (List.replicate lines.natAbs [0x1b, 79, line_cmd]).flatten))
  else
    (state, .BackendCall (.Scroll lines))

/-- A terminal mode with every flag clear. -/
def plainMode : TermMode := ⟨false, false, false, false, false, false, false⟩

/-- A terminal mode with only the click-reporting mouse flag set. -/
def clickReportMode : TermMode := { plainMode with mouse_report_click := true }

/-- A terminal mode with only the bracketed-paste flag set. -/
def pasteMode : TermMode := { plainMode with bracketed_paste := true }

/-- Sequential processing of pixel-unit wheel events, accumulating the total
line count emitted (each event is one `process_mouse_wheel` call with
`MouseWheelUnit::Point`; only the `delta.y` component matters). -/
def runWheelPoint (font_size : ℚ) (state : TerminalViewState) :
    List ℚ → TerminalViewState × ℤ
  | [] => (state, 0)
  | d :: ds =>
      let r := wheelLines state font_size .Point ⟨0, d⟩
      let rest := runWheelPoint font_size r.1 ds
      (rest.1, r.2 + rest.2)

/-- The egui `Key` codes the dispatch logic inspects by name; every other key
code is collapsed into `Other`. -/
inductive Key where
  | Escape
  | F3
  | Enter
  | F
  | Other (code : ℕ)
deriving DecidableEq

/-- The egui `PointerButton` variants. -/
inductive PointerButton where
  | Primary
  | Secondary
  | Middle
  | Extra1
  | Extra2
deriving DecidableEq

/-- Binding-lookup input kinds (`crate::bindings::InputKind`). -/
inductive InputKind where
  | KeyCode (key : Key)
  | Mouse (button : PointerButton)
deriving DecidableEq

/-- Modelled from the spec: `BindingAction` of `src/bindings.rs`, which is not
under `src/` (`Ignore | EmitChar(char) | EmitEscape(bytes) | OpenLink`), with
the constructor names `view.rs` matches on (`Char`, `Esc`, `LinkOpen`,
`Ignore`). -/
inductive BindingAction where
  | Char (c : Char)
  | Esc (seq : String)
  | LinkOpen
  | Ignore
deriving DecidableEq

/-- Modelled from the spec: the Binding Resolver of `src/bindings.rs` (not under
`src/`) is an ordered-table lookup `(inputKind, modifiers, terminalMode) →
BindingAction`.  It is kept fully abstract as an arbitrary lookup function, so
every theorem below quantifies over all possible binding tables. -/
def BindingsLayout : Type := InputKind → Modifiers → TermMode → BindingAction

/-- UTF-8 bytes of a string (Rust `str::as_bytes` / `String::into_bytes`). -/
def strBytes (s : String) : List ℕ := s.toUTF8.toList.map (fun b => b.toNat)

/-- The egui events routed to `process_keyboard_event`.  `Paste` carries the
UTF-8 byte sequence of the pasted string, since the source only ever iterates
`text.bytes()`; `Other` stands for every event kind the keyboard path never
receives. -/
inductive Event where
  | Text (text : String)
  | Paste (bytes : List ℕ)
  | Copy
  | Cut
  | Key (key : Key) (pressed : Bool) (modifiers : Modifiers)
  | Other
deriving DecidableEq

/-- The `\x1b[200~` opening bracketed-paste marker bytes. -/
def pasteOpenMarker : List ℕ := [0x1b, 91, 50, 48, 48, 126]

/-- The `\x1b[201~` closing bracketed-paste marker bytes. -/
def pasteCloseMarker : List ℕ := [0x1b, 91, 50, 48, 49, 126]

/-- The byte filter of the bracketed-paste branch: drop ESC (0x1b) and
ETX (0x03). -/
def pasteFilter (bytes : List ℕ) : List ℕ :=
  bytes.filter (fun b => b != 0x1b && b != 0x03)

/-- The bracketed-paste payload built in `process_keyboard_event`
(src/view.rs:522-533): opening marker, filtered bytes, closing marker. -/
def bracketedPastePayload (bytes : List ℕ) : List ℕ :=
  pasteOpenMarker ++ pasteFilter bytes ++ pasteCloseMarker

/-- Byte-level `text.replace("\r\n", "\r")`. -/
def replaceCrlf : List ℕ → List ℕ
  | 13 :: 10 :: rest => 13 :: replaceCrlf rest
  | b :: rest => b :: replaceCrlf rest
  | [] => []

/-- The normal-mode paste transform
`text.replace("\r\n", "\r").replace("\n", "\r")` at byte level. -/
def normalizeLineEndings (bytes : List ℕ) : List ℕ :=
  (replaceCrlf bytes).map (fun b => if b = 10 then 13 else b)

/-- `process_keyboard_key` (src/view.rs:614-649); the backend is consulted only
for the terminal mode, passed explicitly. -/
def process_keyboard_key (terminal_mode : TermMode)
    (bindings_layout : BindingsLayout) (key : Key) (modifiers : Modifiers)
    (pressed : Bool) : InputAction :=
  if !pressed then .Ignore
  else if modifiers.command && key == Key.F then .ToggleSearch
  else
    match bindings_layout (.KeyCode key) modifiers terminal_mode with
    | .Char c => .BackendCall (.Write (strBytes (String.singleton c)))
    | .Esc seq => .BackendCall (.Write (strBytes seq))
    | _ => .Ignore

/-- `process_text_event` (src/view.rs:588-612).  `from_name` models
`egui::Key::from_name`, kept abstract. -/
def process_text_event (from_name : String → Option Key) (text : String)
    (modifiers : Modifiers) (terminal_mode : TermMode)
    (bindings_layout : BindingsLayout) : InputAction :=
  match from_name text with
  | some key =>
      if bindings_layout (.KeyCode key) modifiers terminal_mode
          == BindingAction.Ignore then
        .BackendCall (.Write (strBytes text))
      else
        .Ignore
  | none => .BackendCall (.Write (strBytes text))

/-- `process_keyboard_event` (src/view.rs:471-586).  The backend supplies the
terminal mode and, for Copy/Cut, the selectable content; both are explicit
parameters.  The Copy/Cut arms model the non-macOS
(`#[cfg(not(any(ios, macos)))]`) build of the source. -/
def process_keyboard_event (from_name : String → Option Key) (event : Event)
    (terminal_mode : TermMode) (selectable_content : String)
    (bindings_layout : BindingsLayout) (modifiers : Modifiers)
    (search_active : Bool) : InputAction :=
  if search_active then
    match event with
    | .Key key pressed key_modifiers =>
        if !pressed then .Ignore
        else if key == Key.Escape then .ToggleSearch
        else if key == Key.F3 then
          if key_modifiers.shift then .SearchPrev else .SearchNext
        else if key == Key.Enter
            && (key_modifiers.ctrl || key_modifiers.command) then
          if key_modifiers.shift then .SearchPrev else .SearchNext
        else if key_modifiers.command && key == Key.F then .ToggleSearch
        else .Ignore
    | _ => .Ignore
  else
    match event with
    | .Text text =>
        process_text_event from_name text modifiers terminal_mode
          bindings_layout
    | .Paste bytes =>
        .BackendCall
          (if terminal_mode.bracketed_paste then
            .Write (bracketedPastePayload bytes)
          else
            .Write (normalizeLineEndings bytes))
    | .Copy =>
        if modifiers.command && modifiers.shift then
          .WriteToClipboard selectable_content
        else
          .BackendCall (.Write [0x3])
    | .Cut =>
        if modifiers.command && modifiers.shift then
          .WriteToClipboard selectable_content
        else
          .BackendCall (.Write [0x18])
    | .Key key pressed key_modifiers =>
        process_keyboard_key terminal_mode bindings_layout key key_modifiers
          pressed
    | .Other => .Ignore

/-- The pieces of the egui `Response` that the pointer-button path reads: the
widget rectangle top-left corner and the click count of the current frame
(egui reports `double_clicked` for click count 2 and `triple_clicked` for
count 3, mutually exclusive for a single pointer event). -/
structure Layout where
  rect_min : Pos2
  click_count : ℕ
deriving DecidableEq

/-- `Response::double_clicked`. -/
def Layout.double_clicked (l : Layout) : Bool := l.click_count == 2

/-- `Response::triple_clicked`. -/
def Layout.triple_clicked (l : Layout) : Bool := l.click_count == 3

/-- `build_start_select_command` (src/view.rs:800-817). -/
def build_start_select_command (layout : Layout) (cursor_position : Pos2) :
    BackendCommand :=
  let selection_type :=
    if layout.double_clicked then SelectionType.Semantic
    else if layout.triple_clicked then SelectionType.Lines
    else SelectionType.Simple
  .SelectStart selection_type (cursor_position.x - layout.rect_min.x)
    (cursor_position.y - layout.rect_min.y)

/-- `process_left_button_pressed` (src/view.rs:761-768). -/
def process_left_button_pressed (state : TerminalViewState) (layout : Layout)
    (position : Pos2) : TerminalViewState × InputAction :=
  ({ state with is_dragged := true },
    .BackendCall (build_start_select_command layout position))

/-- `process_left_button_released` (src/view.rs:770-798). -/
def process_left_button_released (state : TerminalViewState) (layout : Layout)
    (terminal_mode : TermMode) (bindings_layout : BindingsLayout)
    (position : Pos2) (modifiers : Modifiers) :
    TerminalViewState × InputAction :=
  let state := { state with is_dragged := false }
  if layout.double_clicked || layout.triple_clicked then
    (state, .BackendCall (build_start_select_command layout position))
  else if bindings_layout (.Mouse .Primary) modifiers terminal_mode
      == BindingAction.LinkOpen then
    (state,
      .BackendCall (.ProcessLink .Open state.current_mouse_position_on_grid))
  else
    (state, .Ignore)

/-- `process_left_button` (src/view.rs:730-759). -/
def process_left_button (state : TerminalViewState) (layout : Layout)
    (terminal_mode : TermMode) (bindings_layout : BindingsLayout)
    (position : Pos2) (modifiers : Modifiers) (pressed : Bool) :
    TerminalViewState × InputAction :=
  if terminal_mode.mouseMode then
    (state, .BackendCall (.MouseReport .LeftButton modifiers
      state.current_mouse_position_on_grid pressed))
  else if pressed then
    process_left_button_pressed state layout position
  else
    process_left_button_released state layout terminal_mode bindings_layout
      position modifiers

/-- `process_button_click` (src/view.rs:706-728). -/
def process_button_click (state : TerminalViewState) (layout : Layout)
    (terminal_mode : TermMode) (bindings_layout : BindingsLayout)
    (button : PointerButton) (position : Pos2) (modifiers : Modifiers)
    (pressed : Bool) : TerminalViewState × InputAction :=
  match button with
  | .Primary =>
      process_left_button state layout terminal_mode bindings_layout position
        modifiers pressed
  | _ => (state, .Ignore)

/-- Application of one resolved `InputAction` to the persisted view state
(the action loop of `process_input`, src/view.rs:283-316).  Every action other
than `ToggleSearch` only calls the backend or the clipboard and leaves the
persisted state unchanged. -/
def applyAction (state : TerminalViewState) (action : InputAction) :
    TerminalViewState :=
  match action with
  | .ToggleSearch =>
      if !state.search_active then
        { state with search_active := true, search_just_opened := true }
      else
        { state with search_active := false, search_query := "" }
  | _ => state

/-- The start-of-frame consumption of the just-opened flag (src/view.rs:71-80):
while the search panel is shown, a pending `search_just_opened` requests focus
for the query box and is cleared. -/
def consumeJustOpened (state : TerminalViewState) : TerminalViewState :=
  if state.search_active && state.search_just_opened then
    { state with search_just_opened := false }
  else state

/-- One event-processing pass of a `ui` frame over the persisted state: the
just-opened flag is consumed at the top of the frame, then the resolved
`InputAction`s of the frame events are applied in arrival order. -/
def runPass (state : TerminalViewState) (actions : List InputAction) :
    TerminalViewState :=
  actions.foldl applyAction (consumeJustOpened state)

/-- The persisted state after a sequence of frames, starting from
`TerminalViewState::default()`. -/
def runPasses (passes : List (List InputAction)) : TerminalViewState :=
  passes.foldl runPass TerminalViewState.default

/-- Bool test for `ToggleSearch`, used to count toggle actions in one pass. -/
def isToggle : InputAction → Bool
  | .ToggleSearch => true
  | _ => false

/-! ### Facts about the Rust float remainder -/

theorem rustRem_abs_lt (a : ℚ) {b : ℚ} (hb : 0 < b) : |rustRem a b| < b := by
  have ha : a / b * b = a := div_mul_cancel₀ a (ne_of_gt hb)
  rw [abs_lt]
  unfold rustRem rtrunc
  rcases le_or_lt 0 (a / b) with h | h
  · rw [if_pos h]
    have h1 : ((⌊a / b⌋ : ℚ)) * b ≤ a / b * b :=
      mul_le_mul_of_nonneg_right (Int.floor_le _) hb.le
    have h2 : a / b * b < ((⌊a / b⌋ : ℚ) + 1) * b :=
      mul_lt_mul_of_pos_right (Int.lt_floor_add_one _) hb
    constructor <;> nlinarith
  · rw [if_neg (not_le.mpr h)]
    have h1 : a / b * b ≤ ((⌈a / b⌉ : ℚ)) * b :=
      mul_le_mul_of_nonneg_right (Int.le_ceil _) hb.le
    have h2 : ((⌈a / b⌉ : ℚ)) * b < (a / b + 1) * b :=
      mul_lt_mul_of_pos_right (Int.ceil_lt_add_one _) hb
    constructor <;> nlinarith

/-! ### Basic shape lemmas for the scroll translator -/

theorem process_mouse_wheel_fst (state : TerminalViewState) (font_size : ℚ)
    (unit : MouseWheelUnit) (delta : Vec2) (mode : TermMode) :
    (process_mouse_wheel state font_size unit delta mode).1
      = (wheelLines state font_size unit delta).1 := by
  simp only [process_mouse_wheel]
  split_ifs <;> rfl

theorem wheelLines_grid_pos (state : TerminalViewState) (font_size : ℚ)
    (unit : MouseWheelUnit) (delta : Vec2) :
    (wheelLines state font_size unit delta).1.current_mouse_position_on_grid
      = state.current_mouse_position_on_grid := by
  cases unit <;> rfl

/-- C1: for every wheel event whose computed line count is non-zero, mouse-reporting
mode forces a `MouseReport` (ScrollDown for positive lines, ScrollUp for negative)
and excludes raw `Scroll` and escape-byte `Write` commands even when alt-screen and
alternate-scroll are also set; without mouse reporting, alt-screen plus
alternate-scroll yields the arrow escape bytes; otherwise the raw `Scroll`. -/
theorem scroll_dispatch_priority (state : TerminalViewState) (font_size : ℚ)
    (unit : MouseWheelUnit) (delta : Vec2) (mode : TermMode)
    (h : (wheelLines state font_size unit delta).2 ≠ 0) :
    (mode.mouseMode = true →
      (process_mouse_wheel state font_size unit delta mode).2
        = .BackendCall (.MouseReport
            (if 0 < (wheelLines state font_size unit delta).2 then .ScrollDown
             else .ScrollUp)
            Modifiers.NONE state.current_mouse_position_on_grid true) ∧
      (∀ n, (process_mouse_wheel state font_size unit delta mode).2
          ≠ .BackendCall (.Scroll n)) ∧
      (∀ bs, (process_mouse_wheel state font_size unit delta mode).2
          ≠ .BackendCall (.Write bs))) ∧
    (mode.mouseMode = false → (mode.alt_screen && mode.alternate_scroll) = true →
      (process_mouse_wheel state font_size unit delta mode).2
        = .BackendCall (.Write
            (List.replicate (wheelLines state font_size unit delta).2.natAbs
              [0x1b, 79,
                if 0 < (wheelLines state font_size unit delta).2 then 66
                else 65]).flatten)) ∧
    (mode.mouseMode = false → (mode.alt_screen && mode.alternate_scroll) = false →
      (process_mouse_wheel state font_size unit delta mode).2
        = .BackendCall (.Scroll (wheelLines state font_size unit delta).2)) := by
  refine ⟨fun hm => ?_, fun hm ha => ?_, fun hm ha => ?_⟩
  · simp only [process_mouse_wheel, if_neg h, hm, wheelLines_grid_pos]
    simp
  · simp only [process_mouse_wheel, if_neg h, hm, ha]
    simp
  · simp only [process_mouse_wheel, if_neg h, hm, ha]
    simp

/-- Witness for C1: a pixel wheel event of -30 with font size 20 under
click-reporting mode yields a ScrollDown mouse report. -/
theorem scroll_dispatch_priority_witness :
    (process_mouse_wheel TerminalViewState.default 20 .Point ⟨0, -30⟩
        clickReportMode).2
      = .BackendCall (.MouseReport .ScrollDown Modifiers.NONE ⟨0, 0⟩ true) := by
  have hl : (wheelLines TerminalViewState.default 20 .Point ⟨0, -30⟩).2 = 1 := by
    norm_num [wheelLines, rtrunc, TerminalViewState.default]
  have h := (scroll_dispatch_priority TerminalViewState.default 20 .Point
      ⟨0, -30⟩ clickReportMode (by rw [hl]; decide)).1 rfl
  rw [h.1, hl]
  rfl

/-- C4: after any pixel-unit wheel event with positive font pixel size, the
persisted accumulator is strictly smaller than the font pixel size in magnitude. -/
theorem wheel_accumulator_bounded (state : TerminalViewState) (font_size : ℚ)
    (delta : Vec2) (mode : TermMode) (hf : 0 < font_size) :
    |(process_mouse_wheel state font_size .Point delta mode).1.scroll_pixels|
      < font_size := by
  rw [process_mouse_wheel_fst]
  exact rustRem_abs_lt (state.scroll_pixels - delta.y) hf

/-- Witness for C4 at a concrete event. -/
theorem wheel_accumulator_bounded_witness :
    (0 : ℚ) < 20 ∧
      |(process_mouse_wheel TerminalViewState.default 20 .Point ⟨0, -30⟩
          plainMode).1.scroll_pixels| < 20 :=
  ⟨by norm_num,
    wheel_accumulator_bounded TerminalViewState.default 20 ⟨0, -30⟩ plainMode
      (by norm_num)⟩

theorem runWheelPoint_invariant (font_size : ℚ) (ds : List ℚ)
    (s : TerminalViewState) :
    (runWheelPoint font_size s ds).1.scroll_pixels
        + font_size * (runWheelPoint font_size s ds).2
      = s.scroll_pixels + (ds.map (fun d => -d)).sum := by
  induction ds generalizing s with
  | nil => simp [runWheelPoint]
  | cons d ds ih =>
      have hstep : (wheelLines s font_size .Point ⟨0, d⟩).1.scroll_pixels
          = (s.scroll_pixels - d)
            - font_size * (wheelLines s font_size .Point ⟨0, d⟩).2 := rfl
      have hrec := ih (wheelLines s font_size .Point ⟨0, d⟩).1
      rw [hstep] at hrec
      simp only [runWheelPoint, List.map_cons, List.sum_cons]
      push_cast
      linarith

theorem runWheelPoint_bound (font_size : ℚ) (hf : 0 < font_size) (ds : List ℚ)
    (s : TerminalViewState) (hs : |s.scroll_pixels| < font_size) :
    |(runWheelPoint font_size s ds).1.scroll_pixels| < font_size := by
  induction ds generalizing s with
  | nil => exact hs
  | cons d ds ih =>
      exact ih (wheelLines s font_size .Point ⟨0, d⟩).1
        (rustRem_abs_lt (s.scroll_pixels - d) hf)

/-- C5: starting from a zero accumulator, if the sign-inverted pixel deltas of a
wheel-event sequence sum to `k` font heights, the emitted line counts sum to
exactly `k`, however the total is chunked. -/
theorem wheel_accumulator_exact (font_size : ℚ) (ds : List ℚ) (k : ℤ)
    (s : TerminalViewState) (hf : 0 < font_size) (hs : s.scroll_pixels = 0)
    (hsum : (ds.map (fun d => -d)).sum = k * font_size) :
    (runWheelPoint font_size s ds).2 = k := by
  have hinv := runWheelPoint_invariant font_size ds s
  have hb := runWheelPoint_bound font_size hf ds s
    (by rw [hs]; simpa using hf)
  rw [hs, hsum] at hinv
  by_contra hne
  have hkl : k - (runWheelPoint font_size s ds).2 ≠ 0 :=
    sub_ne_zero.mpr fun hh => hne hh.symm
  have h1 : (1 : ℚ) ≤ |((k - (runWheelPoint font_size s ds).2 : ℤ) : ℚ)| := by
    rw [← Int.cast_abs]
    exact_mod_cast Int.one_le_abs hkl
  have hsp : (runWheelPoint font_size s ds).1.scroll_pixels
      = ((k - (runWheelPoint font_size s ds).2 : ℤ) : ℚ) * font_size := by
    push_cast
    linarith
  rw [hsp, abs_mul, abs_of_pos hf] at hb
  nlinarith

/-- Witness for C5: deltas -25 and -15 with font size 20 sum (sign-inverted) to
two font heights and emit two lines in total. -/
theorem wheel_accumulator_exact_witness :
    (runWheelPoint 20 TerminalViewState.default [-25, -15]).2 = 2 :=
  wheel_accumulator_exact 20 [-25, -15] 2 TerminalViewState.default
    (by norm_num) rfl (by norm_num)

/-- C6: one pixel wheel event with delta -30 and font size 20, in plain mode,
emits exactly `Scroll(1)` and leaves 10 pixels in the accumulator. -/
theorem wheel_point_scenario :
    process_mouse_wheel TerminalViewState.default 20 .Point ⟨0, -30⟩ plainMode
      = ({ TerminalViewState.default with scroll_pixels := 10 },
          .BackendCall (.Scroll 1)) := by
  have h1 : rtrunc ((TerminalViewState.default.scroll_pixels - (-30)) / 20)
      = 1 := by
    norm_num [rtrunc, TerminalViewState.default]
  simp only [process_mouse_wheel, wheelLines, rustRem, h1]
  norm_num [TerminalViewState.default, plainMode, TermMode.mouseMode]

/-! ### Bracketed paste (C2) -/

/-- C2: with bracketed paste enabled, a paste dispatches one write consisting of
the opening marker, the input bytes with every ESC (0x1b) and ETX (0x03) byte
removed and nothing else changed, and the closing marker; no byte between the
markers is ESC or ETX. -/
theorem bracketed_paste_strips (from_name : String → Option Key)
    (bytes : List ℕ) (mode : TermMode) (selectable : String)
    (bindings : BindingsLayout) (mods : Modifiers)
    (h : mode.bracketed_paste = true) :
    process_keyboard_event from_name (.Paste bytes) mode selectable bindings
        mods false
      = .BackendCall (.Write (pasteOpenMarker ++ pasteFilter bytes
          ++ pasteCloseMarker)) ∧
    ∀ b ∈ pasteFilter bytes, b ≠ 0x1b ∧ b ≠ 0x03 := by
  constructor
  · simp [process_keyboard_event, h, bracketedPastePayload]
  · intro b hb
    simp only [pasteFilter] at hb
    rcases List.mem_filter.mp hb with ⟨-, hcond⟩
    simp only [Bool.and_eq_true, bne_iff_ne] at hcond
    exact hcond

/-- Witness for C2 on a concrete byte sequence containing ESC and ETX. -/
theorem bracketed_paste_strips_witness :
    pasteMode.bracketed_paste = true ∧
    (process_keyboard_event (fun _ => none) (.Paste [104, 27, 105, 3, 33])
        pasteMode "" (fun _ _ _ => .Ignore) Modifiers.NONE false
      = .BackendCall (.Write (pasteOpenMarker
          ++ pasteFilter [104, 27, 105, 3, 33] ++ pasteCloseMarker)) ∧
      ∀ b ∈ pasteFilter [104, 27, 105, 3, 33], b ≠ 0x1b ∧ b ≠ 0x03) :=
  ⟨rfl, bracketed_paste_strips _ _ _ _ _ _ rfl⟩

/-! ### Search-overlay key handling (C9, C10) -/

/-- C9: while the search overlay is open, Text, Paste, Copy and Cut events all
resolve to Ignore, and a Key event resolves to something other than Ignore only
when pressed and the key is Escape, F3, Ctrl/Cmd-Enter, or Cmd-F. -/
theorem search_overlay_filters (from_name : String → Option Key)
    (mode : TermMode) (selectable : String) (bindings : BindingsLayout)
    (mods : Modifiers) :
    (∀ text, process_keyboard_event from_name (.Text text) mode selectable
        bindings mods true = .Ignore) ∧
    (∀ bytes, process_keyboard_event from_name (.Paste bytes) mode selectable
        bindings mods true = .Ignore) ∧
    process_keyboard_event from_name .Copy mode selectable bindings mods true
      = .Ignore ∧
    process_keyboard_event from_name .Cut mode selectable bindings mods true
      = .Ignore ∧
    (∀ key pressed key_mods,
      process_keyboard_event from_name (.Key key pressed key_mods) mode
          selectable bindings mods true ≠ .Ignore →
      pressed = true ∧
        (key = .Escape ∨ key = .F3 ∨
          (key = .Enter ∧ (key_mods.ctrl = true ∨ key_mods.command = true)) ∨
          (key_mods.command = true ∧ key = .F))) := by
  refine ⟨fun _ => rfl, fun _ => rfl, rfl, rfl, ?_⟩
  intro key pressed key_mods h
  cases pressed with
  | false => exact absurd rfl h
  | true =>
      refine ⟨rfl, ?_⟩
      obtain ⟨a, c, sh, mc, cmd⟩ := key_mods
      cases key <;> cases c <;> cases cmd <;> cases sh <;>
        first
          | exact absurd rfl h
          | simp

/-- Witness for C9: Escape while the overlay is open is not ignored, and the
theorem classifies it. -/
theorem search_overlay_filters_witness :
    process_keyboard_event (fun _ => none) (.Key .Escape true Modifiers.NONE)
        plainMode "" (fun _ _ _ => .Ignore) Modifiers.NONE true ≠ .Ignore ∧
    (true = true ∧
      (Key.Escape = .Escape ∨ Key.Escape = .F3 ∨
        (Key.Escape = .Enter ∧
          (Modifiers.NONE.ctrl = true ∨ Modifiers.NONE.command = true)) ∨
        (Modifiers.NONE.command = true ∧ Key.Escape = .F))) :=
  ⟨by decide,
    (search_overlay_filters (fun _ => none) plainMode ""
        (fun _ _ _ => .Ignore) Modifiers.NONE).2.2.2.2 .Escape true
      Modifiers.NONE (by decide)⟩

/-- C10: a key event with pressed = false resolves to Ignore, both while the
search overlay is open and in normal binding dispatch. -/
theorem key_release_ignored (from_name : String → Option Key) (key : Key)
    (key_mods : Modifiers) (mode : TermMode) (selectable : String)
    (bindings : BindingsLayout) (mods : Modifiers) (search_active : Bool) :
    process_keyboard_event from_name (.Key key false key_mods) mode selectable
        bindings mods search_active = .Ignore := by
  cases search_active <;> rfl

/-! ### Pointer-button handling (C7, C8) -/

theorem build_start_select_command_eq (layout : Layout) (position : Pos2) :
    build_start_select_command layout position
      = .SelectStart
          (if layout.click_count = 2 then .Semantic
           else if layout.click_count = 3 then .Lines
           else .Simple)
          (position.x - layout.rect_min.x) (position.y - layout.rect_min.y) := by
  simp only [build_start_select_command, Layout.double_clicked,
    Layout.triple_clicked]
  by_cases h2 : layout.click_count = 2 <;> by_cases h3 : layout.click_count = 3
    <;> simp [h2, h3]

/-- C7: with mouse reporting off, every SelectStart emitted for a primary-button
event carries kind Semantic on a double click, Lines on a triple click, Simple
otherwise, with coordinates equal to the pointer position minus the widget
top-left corner; a press emits exactly that SelectStart. -/
theorem select_start_kind (state : TerminalViewState) (layout : Layout)
    (mode : TermMode) (bindings : BindingsLayout) (position : Pos2)
    (mods : Modifiers) (hm : mode.mouseMode = false) :
    (∀ pressed kind x y,
      (process_button_click state layout mode bindings .Primary position mods
          pressed).2 = .BackendCall (.SelectStart kind x y) →
      kind = (if layout.click_count = 2 then .Semantic
              else if layout.click_count = 3 then .Lines
              else .Simple) ∧
      x = position.x - layout.rect_min.x ∧
      y = position.y - layout.rect_min.y) ∧
    (process_button_click state layout mode bindings .Primary position mods
        true).2
      = .BackendCall (.SelectStart
          (if layout.click_count = 2 then .Semantic
           else if layout.click_count = 3 then .Lines
           else .Simple)
          (position.x - layout.rect_min.x)
          (position.y - layout.rect_min.y)) := by
  have hpress : (process_button_click state layout mode bindings .Primary
      position mods true).2
      = .BackendCall (build_start_select_command layout position) := by
    simp [process_button_click, process_left_button, hm,
      process_left_button_pressed]
  constructor
  · intro pressed kind x y h
    cases pressed with
    | true =>
        rw [hpress, build_start_select_command_eq] at h
        simp only [InputAction.BackendCall.injEq,
          BackendCommand.SelectStart.injEq] at h
        exact ⟨h.1.symm, h.2.1.symm, h.2.2.symm⟩
    | false =>
        simp only [process_button_click, process_left_button, hm,
          Bool.false_eq_true, if_false, process_left_button_released] at h
        split_ifs at h <;>
          first
            | (rw [build_start_select_command_eq] at h
               simp only [InputAction.BackendCall.injEq,
                 BackendCommand.SelectStart.injEq] at h
               exact ⟨h.1.symm, h.2.1.symm, h.2.2.symm⟩)
            | exact absurd h (by simp)
  · rw [hpress, build_start_select_command_eq]

/-- Witness for C7: the spec scenario — double-click press at pixel (12, 5)
inside a widget with origin (0, 0) emits SelectStart(Semantic, 12, 5). -/
theorem select_start_kind_witness :
    plainMode.mouseMode = false ∧
    (process_button_click TerminalViewState.default ⟨⟨0, 0⟩, 2⟩ plainMode
        (fun _ _ _ => .Ignore) .Primary ⟨12, 5⟩ Modifiers.NONE true).2
      = .BackendCall (.SelectStart .Semantic 12 5) := by
  refine ⟨rfl, ?_⟩
  have h := (select_start_kind TerminalViewState.default ⟨⟨0, 0⟩, 2⟩ plainMode
    (fun _ _ _ => .Ignore) ⟨12, 5⟩ Modifiers.NONE rfl).2
  rw [h]
  norm_num

/-- C8: a pointer-button event whose button is not the primary button resolves
to Ignore and leaves every field of the view state unchanged. -/
theorem non_primary_button_ignored (state : TerminalViewState) (layout : Layout)
    (mode : TermMode) (bindings : BindingsLayout) (button : PointerButton)
    (position : Pos2) (mods : Modifiers) (pressed : Bool)
    (hb : button ≠ .Primary) :
    process_button_click state layout mode bindings button position mods pressed
      = (state, .Ignore) := by
  cases button
  case Primary => exact absurd rfl hb
  all_goals rfl

/-- Witness for C8 at the secondary button. -/
theorem non_primary_button_ignored_witness :
    PointerButton.Secondary ≠ PointerButton.Primary ∧
    process_button_click TerminalViewState.default ⟨⟨0, 0⟩, 1⟩ plainMode
        (fun _ _ _ => .Ignore) .Secondary ⟨3, 4⟩ Modifiers.NONE true
      = (TerminalViewState.default, .Ignore) :=
  ⟨by decide,
    non_primary_button_ignored TerminalViewState.default ⟨⟨0, 0⟩, 1⟩ plainMode
      (fun _ _ _ => .Ignore) .Secondary ⟨3, 4⟩ Modifiers.NONE true (by decide)⟩

/-! ### The search-overlay invariant (C3) -/

/-- A Cmd-F key press resolves to ToggleSearch whether or not the overlay is
already open, so one frame holding two such presses applies ToggleSearch
twice in a single pass. -/
theorem cmd_f_always_toggles (from_name : String → Option Key) (mode : TermMode)
    (selectable : String) (bindings : BindingsLayout) (mods : Modifiers)
    (key_mods : Modifiers) (search_active : Bool)
    (hc : key_mods.command = true) :
    process_keyboard_event from_name (.Key .F true key_mods) mode selectable
        bindings mods search_active = .ToggleSearch := by
  obtain ⟨a, c, sh, mc, cmd⟩ := key_mods
  cases cmd
  · simp at hc
  · cases search_active <;> rfl

/-- Counterexample to C3: the state reached from the default state by one pass
applying two ToggleSearch actions (two Cmd-F presses arriving in the same
frame) has searchJustOpened true and searchActive false. -/
theorem search_invariant_counterexample :
    (runPasses [[.ToggleSearch, .ToggleSearch]]).search_just_opened = true ∧
    (runPasses [[.ToggleSearch, .ToggleSearch]]).search_active = false :=
  ⟨rfl, rfl⟩

theorem isToggle_eq (action : InputAction) (h : isToggle action = true) :
    action = .ToggleSearch := by
  cases action <;> simp [isToggle] at h ⊢

theorem applyAction_non_toggle (state : TerminalViewState)
    (action : InputAction) (h : isToggle action = false) :
    applyAction state action = state := by
  cases action <;> first | rfl | simp [isToggle] at h

theorem foldl_no_toggle (actions : List InputAction) (state : TerminalViewState)
    (h : actions.countP isToggle = 0) :
    actions.foldl applyAction state = state := by
  induction actions generalizing state with
  | nil => rfl
  | cons a as ih =>
      rw [List.countP_cons] at h
      by_cases ha : isToggle a = true
      · rw [ha] at h
        simp at h
      · have ha' : isToggle a = false := by simpa using ha
        rw [ha'] at h
        simp only [Bool.false_eq_true, if_false, Nat.add_zero] at h
        rw [List.foldl_cons, applyAction_non_toggle _ _ ha']
        exact ih state h

theorem foldl_toggle_invariant (actions : List InputAction)
    (state : TerminalViewState) (hj : state.search_just_opened = false)
    (hc : actions.countP isToggle ≤ 1) :
    (actions.foldl applyAction state).search_just_opened = true →
      (actions.foldl applyAction state).search_active = true := by
  induction actions generalizing state with
  | nil =>
      intro h
      rw [List.foldl_nil] at h
      rw [h] at hj
      cases hj
  | cons a as ih =>
      rw [List.foldl_cons]
      by_cases ha : isToggle a = true
      · have haT := isToggle_eq a ha
        subst haT
        have h0 : as.countP isToggle = 0 := by
          rw [List.countP_cons] at hc
          have hone : (if isToggle InputAction.ToggleSearch = true then 1
              else 0) = 1 := rfl
          rw [hone] at hc
          omega
        rw [foldl_no_toggle as _ h0]
        cases hact : state.search_active
        · intro _
          simp [applyAction, hact]
        · intro hjo
          simp only [applyAction, hact, Bool.not_true, Bool.false_eq_true,
            if_false] at hjo
          rw [hjo] at hj
          cases hj
      · have ha' : isToggle a = false := by simpa using ha
        rw [applyAction_non_toggle _ _ ha']
        apply ih state hj
        rw [List.countP_cons, ha'] at hc
        omega

theorem consumeJustOpened_just (s : TerminalViewState)
    (hs : s.search_just_opened = true → s.search_active = true) :
    (consumeJustOpened s).search_just_opened = false := by
  unfold consumeJustOpened
  by_cases h : (s.search_active && s.search_just_opened) = true
  · rw [if_pos h]
  · rw [if_neg h]
    cases hj : s.search_just_opened
    · rfl
    · exact absurd (by rw [hs hj, hj]; rfl) h

/-- C3 amended: the invariant searchJustOpened ⇒ searchActive holds of every
persisted state reachable by passes that each apply at most one ToggleSearch
action.  (As `search_invariant_counterexample` shows, a single pass applying
two ToggleSearch actions — two Cmd-F presses in one frame — violates the
unrestricted invariant.) -/
theorem search_invariant_amended (passes : List (List InputAction))
    (h : ∀ p ∈ passes, p.countP isToggle ≤ 1) :
    (runPasses passes).search_just_opened = true →
      (runPasses passes).search_active = true := by
  suffices H : ∀ (s : TerminalViewState),
      (s.search_just_opened = true → s.search_active = true) →
      ∀ ps : List (List InputAction), (∀ p ∈ ps, p.countP isToggle ≤ 1) →
      ((ps.foldl runPass s).search_just_opened = true →
        (ps.foldl runPass s).search_active = true) by
    exact H TerminalViewState.default (fun h' => by cases h') passes h
  intro s hs ps
  induction ps generalizing s with
  | nil => intro _; exact hs
  | cons p ps ih =>
      intro hp
      rw [List.foldl_cons]
      apply ih
      · exact foldl_toggle_invariant p _ (consumeJustOpened_just s hs)
          (hp p (List.mem_cons_self p ps))
      · intro q hq
        exact hp q (List.mem_cons_of_mem _ hq)

/-- Witness for the amended C3 at a single-toggle pass. -/
theorem search_invariant_amended_witness :
    (∀ p ∈ [[InputAction.ToggleSearch]], p.countP isToggle ≤ 1) ∧
    ((runPasses [[InputAction.ToggleSearch]]).search_just_opened = true →
      (runPasses [[InputAction.ToggleSearch]]).search_active = true) :=
  ⟨by decide, search_invariant_amended [[.ToggleSearch]] (by decide)⟩

end EguiTerm
